import Mathlib

/-!
The Sui buildpack: detection, process types and deploy-wallet initialisation.

A shallow embedding of `sui/detect.go` and `sui/sui.go`.

* Go strings are Lean strings; an `error` is a message together with the answer
  of `os.IsNotExist`, and a nil error is `none`.
* The operating system, the TOML and JSON decoders, the configuration resolver
  and the command executor are collaborators outside the repository: they are
  taken as values (functions and trees) the theorems quantify over.
* The commands run through `Sui.Execute` are recorded, oldest first, in the
  state that the wallet functions pass along.
-/

set_option autoImplicit false

namespace SuiBuildpack

/-! ## Errors -/

/-- A Go `error` value: its message and whether `os.IsNotExist` holds of it. -/
structure Error where
  msg : String
  notExist : Bool
  deriving DecidableEq, Repr

/-- The result of `fmt.Errorf(format)` without a wrapped error. -/
def Errorf (msg : String) : Error := ⟨msg, false⟩

/-- The result of `fmt.Errorf(format ++ "%w", err)`: the message is extended
(a nil operand prints as `%!w(<nil>)`); `os.IsNotExist` does not look through
the wrapping. -/
def Errorw (msg : String) (err : Option Error) : Error :=
  match err with
  | some e => ⟨msg ++ e.msg, false⟩
  | none => ⟨msg ++ "%!w(<nil>)", false⟩

/-- The function `os.IsNotExist` applied to a possibly nil error. -/
def IsNotExist : Option Error → Bool
  | some e => e.notExist
  | none => false

/-! ## detect.go: data -/

/-- The constant `PlanEntrySui`. -/
def PlanEntrySui : String := "sui"

/-- The struct `Dependency`. -/
structure Dependency where
  Git : String
  Rev : String
  Subdir : String
  deriving DecidableEq, Repr

/-- The struct `Package`; the Go map is an association list, looked up by key. -/
structure Package where
  Dependencies : List (String × Dependency)
  deriving DecidableEq, Repr

/-- The struct `libcnb.BuildPlanProvide`. -/
structure BuildPlanProvide where
  Name : String
  deriving DecidableEq, Repr

/-- The struct `libcnb.BuildPlanRequire` (its metadata is never set here). -/
structure BuildPlanRequire where
  Name : String
  deriving DecidableEq, Repr

/-- The struct `libcnb.BuildPlan`. -/
structure BuildPlan where
  Provides : List BuildPlanProvide
  Requires : List BuildPlanRequire
  deriving DecidableEq, Repr

/-- The struct `libcnb.DetectResult`; a nil slice of plans is the empty list. -/
structure DetectResult where
  Pass : Bool
  Plans : List BuildPlan
  deriving DecidableEq, Repr

/-- The struct `libcnb.Application`. -/
structure Application where
  Path : String
  deriving DecidableEq, Repr

/-- The struct `libcnb.DetectContext`, reduced to the field that is read. -/
structure DetectContext where
  Application : Application
  deriving DecidableEq, Repr

/-! ## The file system seen by detection -/

/-- The struct `os.FileInfo`, reduced to `IsDir`. -/
structure FileInfo where
  IsDir : Bool
  deriving DecidableEq, Repr

/-- What `filepath.Walk` finds under a name: a non-directory, a directory with
the outcome of reading its names and its entries in the order they are read, or
an entry whose `Lstat` fails. -/
inductive FsNode where
  | file (name : String)
  | dir (name : String) (readErr : Option Error) (entries : List FsNode)
  | broken (name : String) (err : Error)
  deriving Repr

/-- The name under which an entry is listed in its directory. -/
def FsNode.name : FsNode → String
  | .file n => n
  | .dir n _ _ => n
  | .broken n _ => n

/-- The operating system and decoder as detection uses them. -/
structure FileSystem where
  /-- The function `filepath.Join` on two elements. -/
  Join : String → String → String
  /-- The error returned by `os.Stat` on a path. -/
  Stat : String → Option Error
  /-- The package and error left by `toml.DecodeFile` on a path. -/
  DecodeFile : String → Package × Option Error
  /-- The tree `filepath.Walk` meets at a root path. -/
  tree : String → FsNode

/-- The arguments `info` and `err` of one call of a `filepath.WalkFunc`: either
a `FileInfo` and a nil error, or an error with the `FileInfo` when there is one. -/
inductive Visit where
  | ok (info : FileInfo)
  | failed (info : Option FileInfo) (err : Error)
  deriving DecidableEq, Repr

/-- The loop of `filepath.Ext`, run over the path reversed: scan back to the last
dot of the last path element. -/
def extScan : List Char → List Char → List Char
  | [], _ => []
  | c :: rest, acc =>
    if c = '/' then [] else if c = '.' then '.' :: acc else extScan rest (c :: acc)

/-- The function `filepath.Ext`. -/
def Ext (path : String) : String := String.mk (extScan path.toList.reverse [])

mutual
/-- The function `walk` of `path/filepath`, for a callback that returns no
`SkipDir`: the callback `fn` threads the variables it captures as a state. -/
def walk {σ : Type} (join : String → String → String)
    (fn : σ → String → Visit → σ × Option Error) : String → FsNode → σ → σ × Option Error
  | path, .file _, s => fn s path (.ok ⟨false⟩)
  | path, .broken _ e, s => fn s path (.failed none e)
  | path, .dir _ (some e) _, s => fn s path (.failed (some ⟨true⟩) e)
  | path, .dir _ none entries, s =>
    match fn s path (.ok ⟨true⟩) with
    | (s1, some err1) => (s1, some err1)
    | (s1, none) => walkNames join fn path entries s1
/-- The loop of `walk` over the names of a directory. -/
def walkNames {σ : Type} (join : String → String → String)
    (fn : σ → String → Visit → σ × Option Error) : String → List FsNode → σ → σ × Option Error
  | _, [], s => (s, none)
  | path, c :: cs, s =>
    match walk join fn (join path c.name) c s with
    | (s1, some err) => (s1, some err)
    | (s1, none) => walkNames join fn path cs s1
end

/-- The function `filepath.Walk`. -/
def Walk {σ : Type} (fs : FileSystem) (root : String)
    (fn : σ → String → Visit → σ × Option Error) (s : σ) : σ × Option Error :=
  walk fs.Join fn root (fs.tree root) s

/-! ## detect.go: functions -/

/-- The closure passed to `filepath.Walk` by `existsFilesWithExtension`; the
state is the captured variable `found`. -/
def existsFilesWithExtension.walkFn (extension : String) (found : Bool) (path : String) :
    Visit → Bool × Option Error
  | .failed _ err => (found, some err)
  | .ok info =>
    if !info.IsDir && Ext path == extension then (true, none) else (found, none)

/-- The function `existsFilesWithExtension`. -/
def existsFilesWithExtension (fs : FileSystem) (directory extension : String) : Option Error :=
  match Walk fs directory (existsFilesWithExtension.walkFn extension) false with
  | (found, err) =>
    if !found then
      some (Errorf ("no files with extension \x27" ++ extension ++ "\x27 found"))
    else err

/-- The method `Detect.suiProject`. -/
def suiProject (fs : FileSystem) (appDir : String) : Bool × Option Error :=
  let projectName := fs.Join appDir "Move.toml"
  let err := fs.Stat projectName
  if IsNotExist err || err != none then
    (false, some (Errorw ("unable to determine if " ++ projectName ++ " exists\n") err))
  else
    match fs.DecodeFile projectName with
    | (_, some err) => (false, some (Errorw ("unable to parsing " ++ projectName ++ "\n") (some err)))
    | (packageConfig, none) =>
      if (packageConfig.Dependencies.lookup "Sui").isNone then
        (false, some (Errorf "unable to determine if Sui project"))
      else
        let buildDirectory := fs.Join appDir "."
        let extension := ".move"
        match existsFilesWithExtension fs buildDirectory extension with
        | some err =>
          (false, some (Errorw ("unable to determine if \x27" ++ extension ++ "\x27 exists\n") (some err)))
        | none => (true, none)

/-- The method `Detect.Detect`. -/
def Detect (fs : FileSystem) (context : DetectContext) : DetectResult × Option Error :=
  match suiProject fs context.Application.Path with
  | (_, some err) =>
    (⟨false, []⟩, some (Errorw "unable to detect Sui requirements\n" (some err)))
  | (found, none) =>
    if !found then (⟨false, []⟩, none)
    else
      (⟨true, [⟨[⟨PlanEntrySui⟩], [⟨PlanEntrySui⟩]⟩]⟩, none)

/-! ## sui.go: data -/

/-- The struct `libpak.ConfigurationResolver` through the two methods that are
called on it: `Resolve` gives the value and whether it was set, `ResolveBool`
the value read as a boolean. -/
structure ConfigurationResolver where
  Resolve : String → String × Bool
  ResolveBool : String → Bool

/-- The struct `effect.Execution`: the command and its arguments; what it writes
to `Stdout` and `Stderr` is the output an executor returns. -/
structure Execution where
  Command : String
  Args : List String
  deriving DecidableEq, Repr

/-- The interface `effect.Executor`: given the executions run before, an
execution writes some output and returns an error or nil. -/
abbrev Executor := List Execution → Execution → String × Option Error

/-- The struct `DeployWallet`. -/
structure DeployWallet where
  Address : String
  KeyScheme : String
  deriving DecidableEq, Repr

/-- The function `json.Unmarshal` into a zero `DeployWallet`: the wallet it
leaves behind and its error. -/
abbrev Unmarshal := String → DeployWallet × Option Error

/-- The struct `libcnb.Process`, with the fields that are set (`Type_` is the
field `Type`). -/
structure Process where
  Type_ : String
  Command : String
  Arguments : List String
  Default : Bool
  deriving DecidableEq, Repr

/-- The struct `Sui`: the resolver and the executor (the layer contributor is
used by `Contribute` alone; what the logger prints is kept in `State`). -/
structure Sui where
  configResolver : ConfigurationResolver
  Executor : Executor

/-- The effects of a run so far, oldest first: the executions handed to the
executor and the lines handed to `Logger.Bodyf`. -/
structure State where
  executions : List Execution
  logged : List String
  deriving DecidableEq, Repr

/-- The method `bard.Logger.Bodyf`, after formatting. -/
def Bodyf (line : String) (st : State) : State :=
  { st with logged := st.logged ++ [line] }

/-! ## sui.go: the version read by Contribute -/

/-- The function `unicode.IsSpace`. -/
def isSpace (c : Char) : Bool :=
  let n := c.toNat
  n == 0x09 || n == 0x0A || n == 0x0B || n == 0x0C || n == 0x0D || n == 0x20 ||
  n == 0x85 || n == 0xA0 || n == 0x1680 || (0x2000 ≤ n && n ≤ 0x200A) ||
  n == 0x2028 || n == 0x2029 || n == 0x202F || n == 0x205F || n == 0x3000

/-- The function `strings.TrimSpace`, on the characters of a string. -/
def TrimSpace (s : List Char) : List Char :=
  ((s.dropWhile isSpace).reverse.dropWhile isSpace).reverse

/-- The function `strings.Split` for a separator of one character: the pieces
between the occurrences of the separator, one piece when there is none. -/
def Split (sep : Char) : List Char → List (List Char)
  | [] => [[]]
  | c :: cs =>
    if c = sep then [] :: Split sep cs
    else
      match Split sep cs with
      | [] => [[c]]
      | piece :: pieces => (c :: piece) :: pieces

/-- Line 102 of `Contribute`: the element at index 1 of the trimmed output split
at single spaces; `none` is the panic of an index out of range. -/
def Contribute.version (buf : String) : Option String :=
  ((Split ' ' (TrimSpace buf.toList))[1]?).map String.mk

/-- The function `strings.Fields`: the maximal runs of characters that are not
white space, which the specification calls the whitespace-delimited tokens. -/
def Fields : List Char → List (List Char)
  | [] => []
  | [c] => if isSpace c then [] else [[c]]
  | c :: d :: r =>
    if isSpace c then Fields (d :: r)
    else if isSpace d then [c] :: Fields (d :: r)
    else
      match Fields (d :: r) with
      | [] => [[c]]
      | field :: fields => (c :: field) :: fields

/-! ## sui.go: functions -/

/-- The method `Sui.Execute`. -/
def Execute (r : Sui) (command : String) (args : List String) (st : State) :
    (String × Option Error) × State :=
  let execution : Execution := ⟨command, args⟩
  let st1 : State := { st with executions := st.executions ++ [execution] }
  match r.Executor st.executions execution with
  | (buf, some err) => ((buf, some (Errorw (buf ++ ": ") (some err))), st1)
  | (buf, none) => ((buf, none), st1)

/-- The method `Sui.BuildProcessTypes`. -/
def BuildProcessTypes (r : Sui) (cr : ConfigurationResolver) (_app : Application) :
    List Process × Option Error :=
  let processes : List Process := []
  let enableDeploy := cr.ResolveBool "BP_ENABLE_SUI_DEPLOY"
  if enableDeploy then
    let deployPrivateKey := (r.configResolver.Resolve "BP_SUI_DEPLOY_PRIVATE_KEY").1
    if deployPrivateKey.length == 0 then
      (processes, some (Errorf "BP_SUI_DEPLOY_PRIVATE_KEY must be specified"))
    else
      let gasBudget := (cr.Resolve "BP_SUI_DEPLOY_GAS").1
      (processes ++ [⟨PlanEntrySui, PlanEntrySui,
        ["client", "publish", "--skip-fetch-latest-git-deps", "--gas-budget", gasBudget], true⟩],
       none)
  else (processes, none)

/-- The method `Sui.InitializeEnv`. -/
def InitializeEnv (r : Sui) (st : State) : (String × Option Error) × State :=
  let st := Bodyf "Initializing sui env" st
  let args := ["client", "--yes", "envs"]
  Execute r PlanEntrySui args st

/-- The method `Sui.ImportingDeployKey`. -/
def ImportingDeployKey (r : Sui) (deployPrivateKey deployKeyScheme : String) (st : State) :
    (String × Option Error) × State :=
  let st := Bodyf ("Importing sui deploy key " ++ deployPrivateKey) st
  let args := ["keytool", "import", "--json", deployPrivateKey, deployKeyScheme]
  Execute r PlanEntrySui args st

/-- The method `Sui.VerifyingDeployKey`. -/
def VerifyingDeployKey (unmarshal : Unmarshal) (privateKeyData : String)
    (deployPrivateKey deployKeyScheme : String) (st : State) :
    (DeployWallet × Option Error) × State :=
  let st := Bodyf ("Verifying sui deploy key " ++ deployPrivateKey) st
  match unmarshal privateKeyData with
  | (deployWallet, some err) =>
    ((deployWallet, some (Errorw "unable to parse sui deploy key\n" (some err))), st)
  | (deployWallet, none) =>
    if deployWallet.KeyScheme != deployKeyScheme then
      ((deployWallet, some (Errorf ("unable to verify sui deploy key " ++ deployPrivateKey))), st)
    else ((deployWallet, none), st)

/-- The method `Sui.SwitchDeployWallet`. -/
def SwitchDeployWallet (r : Sui) (deployWallet : DeployWallet) (deployNetwork : String)
    (st : State) : (Bool × Option Error) × State :=
  let st := Bodyf ("Switching sui deploy wallet " ++ deployWallet.Address ++ " for " ++
    deployNetwork ++ " as default") st
  let args := ["client", "switch", "--address", deployWallet.Address, "--env", deployNetwork]
  match Execute r PlanEntrySui args st with
  | ((_, some err), st) =>
    ((false, some (Errorw "unable to switch sui deploy wallet as default\n" (some err))), st)
  | ((_, none), st) => ((true, none), st)

/-- The method `Sui.GetFaucet`. -/
def GetFaucet (r : Sui) (recipient deployNetwork : String) (st : State) :
    (Bool × Option Error) × State :=
  if deployNetwork == "devnet" then
    let st := Bodyf ("Getting sui faucet for " ++ recipient) st
    let args := [
      "--location",
      "--request", "POST", "https://faucet." ++ deployNetwork ++ ".sui.io/gas",
      "--header", "Content-Type: application/json",
      "--data-raw", "\x7b\"FixedAmountRequest\": \x7b\"recipient\": \"" ++ recipient ++ "\"\x7d\x7d"]
    match Execute r "curl" args st with
    | ((_, some err), st) =>
      ((false, some (Errorw ("unable to get sui faucet for " ++ recipient ++ "\n") (some err))), st)
    | ((_, none), st) => ((true, none), st)
  else ((true, none), st)

/-- The method `Sui.InitializeWallet`. -/
def InitializeWallet (r : Sui) (unmarshal : Unmarshal)
    (deployPrivateKey deployKeyScheme deployNetwork : String) (st : State) :
    (Bool × Option Error) × State :=
  match InitializeEnv r st with
  | ((_, some err), st) => ((false, some (Errorw "unable to initialize sui env\n" (some err))), st)
  | ((_, none), st) =>
    match ImportingDeployKey r deployPrivateKey deployKeyScheme st with
    | ((_, some err), st) =>
      ((false, some (Errorw "unable to import sui deploy key\n" (some err))), st)
    | ((buf, none), st) =>
      match VerifyingDeployKey unmarshal buf deployPrivateKey deployKeyScheme st with
      | ((_, some err), st) =>
        ((false, some (Errorw "unable to verify sui deploy key\n" (some err))), st)
      | ((deployWallet, none), st) =>
        match SwitchDeployWallet r deployWallet deployNetwork st with
        | ((_, some err), st) =>
          ((false, some (Errorw "unable to switch sui deploy wallet\n" (some err))), st)
        | ((_, none), st) =>
          match GetFaucet r deployWallet.Address deployNetwork st with
          | ((_, some err), st) =>
            ((false, some (Errorw "unable to get sui faucet\n" (some err))), st)
          | ((_, none), st) => ((true, none), st)

/-- The method `Sui.InitializeDeployWallet`. -/
def InitializeDeployWallet (r : Sui) (unmarshal : Unmarshal) (st : State) :
    (Bool × Option Error) × State :=
  let enableDeploy := r.configResolver.ResolveBool "BP_ENABLE_SUI_DEPLOY"
  if enableDeploy then
    let deployPrivateKey := (r.configResolver.Resolve "BP_SUI_DEPLOY_PRIVATE_KEY").1
    let deployKeyScheme := (r.configResolver.Resolve "BP_SUI_DEPLOY_KEY_SCHEME").1
    let deployNetwork := (r.configResolver.Resolve "BP_SUI_DEPLOY_NETWORK").1
    match InitializeWallet r unmarshal deployPrivateKey deployKeyScheme deployNetwork st with
    | ((ok, err), st) =>
      if !ok then
        ((false, some (Errorw ("unable to initialize " ++ PlanEntrySui ++ " wallet\n") err)), st)
      else ((true, none), st)
  else ((true, none), st)

/-! ## The conditions of detection, in the words of the specification -/

mutual
/-- The tree is walked without an I/O error: every `Lstat` and every reading of
a directory in it succeeds. -/
def FsNode.noError : FsNode → Bool
  | .file _ => true
  | .broken _ _ => false
  | .dir _ (some _) _ => false
  | .dir _ none entries => noErrorList entries
/-- Every entry of a directory is walked without an I/O error. -/
def noErrorList : List FsNode → Bool
  | [] => true
  | c :: cs => c.noError && noErrorList cs
end

mutual
/-- The tree at `path` contains a non-directory file whose path has the
extension `extension`. -/
def hasFileWithExt (join : String → String → String) (extension : String) :
    String → FsNode → Bool
  | path, .file _ => Ext path == extension
  | _, .broken _ _ => false
  | path, .dir _ _ entries => anyFileWithExt join extension path entries
/-- Some entry of the directory at `path` contains such a file. -/
def anyFileWithExt (join : String → String → String) (extension : String) :
    String → List FsNode → Bool
  | _, [] => false
  | path, c :: cs =>
    hasFileWithExt join extension (join path c.name) c || anyFileWithExt join extension path cs
end

/-- The path of the manifest that detection reads for an application. -/
def manifestPath (fs : FileSystem) (context : DetectContext) : String :=
  fs.Join context.Application.Path "Move.toml"

/-- The root at which detection walks the application. -/
def walkRoot (fs : FileSystem) (context : DetectContext) : String :=
  fs.Join context.Application.Path "."

/-- The manifest declares a dependency keyed `Sui`. -/
def hasSuiDependency (pkg : Package) : Prop :=
  "Sui" ∈ pkg.Dependencies.map Prod.fst

instance (pkg : Package) : Decidable (hasSuiDependency pkg) := by
  unfold hasSuiDependency; infer_instance

/-! ## The commands of wallet initialisation, as the specification lists them -/

/-- The vector `sui client --yes envs`. -/
def envsCommand : Execution := ⟨"sui", ["client", "--yes", "envs"]⟩

/-- The vector `sui keytool import --json <key> <scheme>`. -/
def importCommand (key scheme : String) : Execution :=
  ⟨"sui", ["keytool", "import", "--json", key, scheme]⟩

/-- The vector `sui client switch --address <addr> --env <network>`. -/
def switchCommand (address network : String) : Execution :=
  ⟨"sui", ["client", "switch", "--address", address, "--env", network]⟩

/-- The faucet request: `curl` posting to `https://faucet.devnet.sui.io/gas` a
JSON body that names the recipient. -/
def faucetCommand (recipient : String) : Execution :=
  ⟨"curl", ["--location", "--request", "POST", "https://faucet.devnet.sui.io/gas",
    "--header", "Content-Type: application/json",
    "--data-raw", "\x7b\"FixedAmountRequest\": \x7b\"recipient\": \"" ++ recipient ++ "\"\x7d\x7d"]⟩

/-! ## Example inputs -/

/-- A `filepath.Join` for paths that are already clean. -/
def exampleJoin (dir name : String) : String :=
  if name == "." then dir else dir ++ "/" ++ name

/-- An application with a manifest that depends on `Sui` and one contract. -/
def suiApp : FileSystem where
  Join := exampleJoin
  Stat := fun _ => none
  DecodeFile := fun _ => (⟨[("Sui", ⟨"https://github.com/MystenLabs/sui.git", "framework/devnet",
    "crates/sui-framework/packages/sui-framework"⟩)]⟩, none)
  tree := fun _ =>
    .dir "" none [.file "Move.toml", .dir "sources" none [.file "contract.move"]]

/-- An application without a manifest. -/
def emptyApp : FileSystem where
  Join := exampleJoin
  Stat := fun _ => some ⟨"stat /workspace/Move.toml: no such file or directory", true⟩
  DecodeFile := fun _ => (⟨[]⟩, some ⟨"open /workspace/Move.toml: no such file or directory", true⟩)
  tree := fun _ => .dir "" none [.file "main.go"]

/-- An application whose manifest depends on another framework only. -/
def aptosApp : FileSystem where
  Join := exampleJoin
  Stat := fun _ => none
  DecodeFile := fun _ => (⟨[("AptosFramework", ⟨"https://github.com/aptos-labs/aptos-core.git",
    "main", "aptos-move/framework/aptos-framework"⟩)]⟩, none)
  tree := fun _ =>
    .dir "" none [.file "Move.toml", .dir "sources" none [.file "contract.move"]]

/-- An application whose manifest depends on `Sui` but that has no contract. -/
def noContractApp : FileSystem where
  Join := exampleJoin
  Stat := fun _ => none
  DecodeFile := fun _ => (⟨[("Sui", ⟨"https://github.com/MystenLabs/sui.git", "framework/devnet",
    "crates/sui-framework/packages/sui-framework"⟩)]⟩, none)
  tree := fun _ => .dir "" none [.file "Move.toml", .dir "sources" none [.file "README.md"]]

/-- The detection context of the examples. -/
def workspace : DetectContext := ⟨⟨"/workspace"⟩⟩

/-- The function `strconv.ParseBool`. -/
def ParseBool (s : String) : Option Bool :=
  if s = "1" ∨ s = "t" ∨ s = "T" ∨ s = "TRUE" ∨ s = "true" ∨ s = "True" then some true
  else if s = "0" ∨ s = "f" ∨ s = "F" ∨ s = "FALSE" ∨ s = "false" ∨ s = "False" then some false
  else none

/-- A resolver over an environment given as a list of variables and no
default values: an unset name resolves to the empty string. -/
def envResolver (env : List (String × String)) : ConfigurationResolver where
  Resolve := fun name =>
    match env.lookup name with
    | some v => (v, true)
    | none => ("", false)
  ResolveBool := fun name =>
    match env.lookup name with
    | some v => (ParseBool v).getD false
    | none => false

/-- An executor whose commands all succeed; `sui keytool import` prints a wallet
with scheme `ed25519`. -/
def exampleExecutor : Executor := fun _ execution =>
  if execution.Args.take 2 = ["keytool", "import"] then
    ("\x7b\"suiAddress\":\"0xabc\",\"keyScheme\":\"ed25519\"\x7d", none)
  else ("", none)

/-- A JSON value as `encoding/json` scans it. -/
inductive JsonValue where
  | null
  | bool (b : Bool)
  | number (text : String)
  | string (s : String)
  | array (items : List JsonValue)
  | object (members : List (String × JsonValue))

/-- Skip JSON white space: space, tab, carriage return, line feed. -/
def skipBlank : List Char → List Char
  | [] => []
  | c :: cs => if c = ' ' ∨ c = '\t' ∨ c = '\n' ∨ c = '\r' then skipBlank cs else c :: cs

/-- The value of a hexadecimal digit. -/
def hexDigit (c : Char) : Option Nat :=
  let n := c.toNat
  if 48 ≤ n ∧ n ≤ 57 then some (n - 48)
  else if 97 ≤ n ∧ n ≤ 102 then some (n - 87)
  else if 65 ≤ n ∧ n ≤ 70 then some (n - 55)
  else none

/-- The function `getu4` after `\u`: four hexadecimal digits. -/
def readHex4 : List Char → Option (Nat × List Char)
  | a :: b :: c :: d :: rest => do
    let a ← hexDigit a
    let b ← hexDigit b
    let c ← hexDigit c
    let d ← hexDigit d
    pure (((a * 16 + b) * 16 + c) * 16 + d, rest)
  | _ => none

/-- The escape `\uXXXX` at the head of the input, if there is one. -/
def readEscapedUnit : List Char → Option (Nat × List Char)
  | b :: u :: rest => if b = '\\' ∧ u = 'u' then readHex4 rest else none
  | _ => none

/-- The character a one-letter escape stands for. -/
def unescape (e : Char) : Option Char :=
  if e = '"' then some '"'
  else if e = '\\' then some '\\'
  else if e = '/' then some '/'
  else if e = 'b' then some (Char.ofNat 8)
  else if e = 'f' then some (Char.ofNat 12)
  else if e = 'n' then some '\n'
  else if e = 'r' then some '\r'
  else if e = 't' then some '\t'
  else none

/-- Put a character in front of the text read after it. -/
def consChar (c : Char) : Option (List Char × List Char) → Option (List Char × List Char)
  | some (text, rest) => some (c :: text, rest)
  | none => none

/-- Read a JSON string after its opening quote, up to the closing quote: control
characters are refused, escapes are decoded, a valid surrogate pair is one
character and a lone surrogate is U+FFFD. -/
def readString : Nat → List Char → Option (List Char × List Char)
  | 0, _ => none
  | _ + 1, [] => none
  | fuel + 1, c :: cs =>
    if c = '"' then some ([], cs)
    else if c.toNat < 32 then none
    else if c = '\\' then
      match cs with
      | [] => none
      | e :: cs1 =>
        if e = 'u' then
          match readHex4 cs1 with
          | none => none
          | some (n, cs2) =>
            if 0xD800 ≤ n ∧ n < 0xE000 then
              match readEscapedUnit cs2 with
              | some (m, cs3) =>
                if n < 0xDC00 ∧ 0xDC00 ≤ m ∧ m < 0xE000 then
                  consChar (Char.ofNat (0x10000 + (n - 0xD800) * 0x400 + (m - 0xDC00)))
                    (readString fuel cs3)
                else consChar (Char.ofNat 0xFFFD) (readString fuel cs2)
              | none => consChar (Char.ofNat 0xFFFD) (readString fuel cs2)
            else consChar (Char.ofNat n) (readString fuel cs2)
        else
          match unescape e with
          | some ch => consChar ch (readString fuel cs1)
          | none => none
    else consChar c (readString fuel cs)

/-- Whether a character is a decimal digit. -/
def isDigit (c : Char) : Bool := 48 ≤ c.toNat && c.toNat ≤ 57

/-- Read the digits of a number that must have at least one. -/
def readDigits (cs : List Char) : Option (List Char × List Char) :=
  match cs.span isDigit with
  | ([], _) => none
  | (digits, rest) => some (digits, rest)

/-- Read a JSON number: an optional minus, `0` or digits not starting with `0`,
an optional fraction and an optional exponent. -/
def readNumber (cs : List Char) : Option (List Char × List Char) := do
  let (sign, cs) :=
    match cs with
    | c :: rest => if c = '-' then ([c], rest) else ([], c :: rest)
    | [] => ([], [])
  let (whole, cs) ←
    match cs with
    | c :: rest => if c = '0' then some ([c], rest) else readDigits (c :: rest)
    | [] => none
  let (fraction, cs) ←
    match cs with
    | c :: rest =>
      if c = '.' then (readDigits rest).map fun (digits, r) => (c :: digits, r)
      else some ([], c :: rest)
    | [] => some ([], [])
  let (exponent, cs) ←
    match cs with
    | c :: rest =>
      if c = 'e' ∨ c = 'E' then
        match rest with
        | s :: rest2 =>
          if s = '+' ∨ s = '-' then (readDigits rest2).map fun (digits, r) => (c :: s :: digits, r)
          else (readDigits rest).map fun (digits, r) => (c :: digits, r)
        | [] => none
      else some ([], c :: rest)
    | [] => some ([], [])
  pure (sign ++ whole ++ fraction ++ exponent, cs)

/-- Read a literal name at the head of the input. -/
def readLiteral (name : String) (value : JsonValue) (cs : List Char) :
    Option (JsonValue × List Char) :=
  if name.toList.isPrefixOf cs then some (value, cs.drop name.length) else none

mutual
/-- Read one JSON value after white space; `depth` is the nesting still allowed. -/
def readValue : Nat → Nat → List Char → Option (JsonValue × List Char)
  | 0, _, _ => none
  | fuel + 1, depth, cs =>
    match skipBlank cs with
    | [] => none
    | c :: rest =>
      if c = '"' then
        match readString rest.length rest with
        | some (text, r) => some (.string (String.mk text), r)
        | none => none
      else if c = '\x5b' then
        match depth with
        | 0 => none
        | depth + 1 =>
          match skipBlank rest with
          | [] => none
          | d :: r =>
            if d = '\x5d' then some (.array [], r)
            else
              match readItems fuel depth (d :: r) with
              | some (items, r2) => some (.array items, r2)
              | none => none
      else if c = '\x7b' then
        match depth with
        | 0 => none
        | depth + 1 =>
          match skipBlank rest with
          | [] => none
          | d :: r =>
            if d = '\x7d' then some (.object [], r)
            else
              match readMembers fuel depth (d :: r) with
              | some (members, r2) => some (.object members, r2)
              | none => none
      else if c = 't' then readLiteral "true" (.bool true) (c :: rest)
      else if c = 'f' then readLiteral "false" (.bool false) (c :: rest)
      else if c = 'n' then readLiteral "null" .null (c :: rest)
      else
        match readNumber (c :: rest) with
        | some (text, r) => some (.number (String.mk text), r)
        | none => none
/-- Read the items of an array up to its closing bracket. -/
def readItems : Nat → Nat → List Char → Option (List JsonValue × List Char)
  | 0, _, _ => none
  | fuel + 1, depth, cs =>
    match readValue fuel depth cs with
    | none => none
    | some (item, cs1) =>
      match skipBlank cs1 with
      | [] => none
      | d :: rest =>
        if d = ',' then
          match readItems fuel depth rest with
          | some (items, r) => some (item :: items, r)
          | none => none
        else if d = '\x5d' then some ([item], rest)
        else none
/-- Read the members of an object up to its closing brace. -/
def readMembers : Nat → Nat → List Char → Option (List (String × JsonValue) × List Char)
  | 0, _, _ => none
  | fuel + 1, depth, cs =>
    match skipBlank cs with
    | [] => none
    | q :: cs1 =>
      if q = '"' then
        match readString cs1.length cs1 with
        | none => none
        | some (key, cs2) =>
          match skipBlank cs2 with
          | [] => none
          | colon :: cs3 =>
            if colon = ':' then
              match readValue fuel depth cs3 with
              | none => none
              | some (value, cs4) =>
                match skipBlank cs4 with
                | [] => none
                | d :: rest =>
                  if d = ',' then
                    match readMembers fuel depth rest with
                    | some (members, r) => some ((String.mk key, value) :: members, r)
                    | none => none
                  else if d = '\x7d' then some ([(String.mk key, value)], rest)
                  else none
            else none
      else none
end

/-- The name `encoding/json` gives the kind of a value in a type error. -/
def JsonValue.kind : JsonValue → String
  | .null => "null"
  | .bool _ => "bool"
  | .number _ => "number"
  | .string _ => "string"
  | .array _ => "array"
  | .object _ => "object"

/-- The function `foldName`, as far as it matters against names in ASCII
letters: upper case, with U+017F for `S` and U+212A for `K`. -/
def foldName (name : String) : List Char :=
  name.toList.map fun c =>
    if 97 ≤ c.toNat ∧ c.toNat ≤ 122 then Char.ofNat (c.toNat - 32)
    else if c.toNat = 0x17F then 'S'
    else if c.toNat = 0x212A then 'K'
    else c

/-- Store a member value into a string field: a string is stored, `null`
leaves the field, any other kind leaves it and saves a type error unless
one is saved already. -/
def storeString (field : String) (old : String) (saved : Option Error) :
    JsonValue → String × Option Error
  | .string s => (s, saved)
  | .null => (old, saved)
  | other =>
    (old, match saved with
      | some err => some err
      | none => some ⟨"json: cannot unmarshal " ++ other.kind ++
          " into Go struct field DeployWallet." ++ field ++ " of type string", false⟩)

/-- Store the members of an object into a `DeployWallet`, in their order: the
name of a member selects the field `suiAddress` or `keyScheme` whatever the
case of its letters, other members are skipped. -/
def storeMembers : List (String × JsonValue) → DeployWallet → Option Error →
    DeployWallet × Option Error
  | [], wallet, saved => (wallet, saved)
  | (key, value) :: members, wallet, saved =>
    if foldName key = foldName "suiAddress" then
      match storeString "suiAddress" wallet.Address saved value with
      | (address, saved) => storeMembers members { wallet with Address := address } saved
    else if foldName key = foldName "keyScheme" then
      match storeString "keyScheme" wallet.KeyScheme saved value with
      | (scheme, saved) => storeMembers members { wallet with KeyScheme := scheme } saved
    else storeMembers members wallet saved

/-- The function `json.Unmarshal` into a zero `DeployWallet`, on text that is
valid UTF-8: a syntax error (its text abridged) leaves the wallet zero; an
object fills the fields; `null` does nothing; any other value is a type error. -/
def decodeWallet : Unmarshal := fun data =>
  match readValue (2 * data.length + 2) 10000 data.toList with
  | none => (⟨"", ""⟩, some ⟨"invalid JSON input", false⟩)
  | some (value, rest) =>
    if skipBlank rest ≠ [] then (⟨"", ""⟩, some ⟨"invalid character after top-level value", false⟩)
    else
      match value with
      | .object members => storeMembers members ⟨"", ""⟩ none
      | .null => (⟨"", ""⟩, none)
      | other =>
        (⟨"", ""⟩, some ⟨"json: cannot unmarshal " ++ other.kind ++
          " into Go value of type sui.DeployWallet", false⟩)

/-- An executor on which `sui client switch` fails. -/
def failingSwitchExecutor : Executor := fun log execution =>
  if execution.Args.take 2 = ["client", "switch"] then
    ("Cannot switch to address", some ⟨"exit status 1", false⟩)
  else exampleExecutor log execution

/-- The start of a run: nothing executed, nothing logged. -/
def State.start : State := ⟨[], []⟩

/-! # Theorems -/

/-! ## Lemmas on the walk of detection -/

mutual
theorem walk_noError (join : String → String → String) (extension : String) :
    ∀ (path : String) (t : FsNode) (found : Bool), t.noError = true →
      walk join (existsFilesWithExtension.walkFn extension) path t found =
        (found || hasFileWithExt join extension path t, none)
  | path, .file n, found, _ => by
    simp only [walk, existsFilesWithExtension.walkFn, hasFileWithExt]
    cases found <;> cases h : (Ext path == extension) <;> simp
  | _, .broken _ _, _, h => by simp [FsNode.noError] at h
  | _, .dir _ (some _) _, _, h => by simp [FsNode.noError] at h
  | path, .dir n none entries, found, h => by
    simp only [FsNode.noError] at h
    simp only [walk, existsFilesWithExtension.walkFn, hasFileWithExt]
    simpa using walkNames_noError join extension path entries found h
theorem walkNames_noError (join : String → String → String) (extension : String) :
    ∀ (path : String) (cs : List FsNode) (found : Bool), noErrorList cs = true →
      walkNames join (existsFilesWithExtension.walkFn extension) path cs found =
        (found || anyFileWithExt join extension path cs, none)
  | _, [], found, _ => by simp [walkNames, anyFileWithExt]
  | path, c :: cs, found, h => by
    simp only [noErrorList, Bool.and_eq_true] at h
    simp only [walkNames, anyFileWithExt]
    rw [walk_noError join extension (join path c.name) c found h.1]
    simp only []
    rw [walkNames_noError join extension path cs _ h.2, Bool.or_assoc]
end

mutual
theorem walk_found (join : String → String → String) (extension : String) :
    ∀ (path : String) (t : FsNode) (found : Bool),
      (walk join (existsFilesWithExtension.walkFn extension) path t found).1 = true →
        found = true ∨ hasFileWithExt join extension path t = true
  | path, .file n, found, h => by
    simp only [walk, existsFilesWithExtension.walkFn] at h
    simp only [hasFileWithExt]
    cases found <;> cases h2 : (Ext path == extension) <;> simp_all
  | _, .broken _ _, found, h => by
    simp only [walk, existsFilesWithExtension.walkFn] at h
    exact Or.inl h
  | _, .dir _ (some _) _, found, h => by
    simp only [walk, existsFilesWithExtension.walkFn] at h
    exact Or.inl h
  | path, .dir n none entries, found, h => by
    simp only [walk, existsFilesWithExtension.walkFn] at h
    simp only [hasFileWithExt]
    have h2 := walkNames_found join extension path entries found (by simpa using h)
    exact h2
theorem walkNames_found (join : String → String → String) (extension : String) :
    ∀ (path : String) (cs : List FsNode) (found : Bool),
      (walkNames join (existsFilesWithExtension.walkFn extension) path cs found).1 = true →
        found = true ∨ anyFileWithExt join extension path cs = true
  | _, [], found, h => by
    simp only [walkNames] at h
    exact Or.inl h
  | path, c :: cs, found, h => by
    simp only [walkNames] at h
    simp only [anyFileWithExt, Bool.or_eq_true]
    cases hw : walk join (existsFilesWithExtension.walkFn extension) (join path c.name) c found with
    | mk s1 e =>
      rw [hw] at h
      have h1 := walk_found join extension (join path c.name) c found
      rw [hw] at h1
      cases e with
      | some err =>
        simp only [] at h
        rcases h1 h with h3 | h3
        · exact Or.inl h3
        · exact Or.inr (Or.inl h3)
      | none =>
        simp only [] at h
        rcases walkNames_found join extension path cs s1 h with h3 | h3
        · rcases h1 h3 with h4 | h4
          · exact Or.inl h4
          · exact Or.inr (Or.inl h4)
        · exact Or.inr (Or.inr h3)
end

theorem existsFilesWithExtension_noError (fs : FileSystem) (directory extension : String)
    (hwalk : (fs.tree directory).noError = true)
    (hfile : hasFileWithExt fs.Join extension directory (fs.tree directory) = true) :
    existsFilesWithExtension fs directory extension = none := by
  simp [existsFilesWithExtension, Walk, walk_noError fs.Join extension _ _ false hwalk, hfile]

theorem existsFilesWithExtension_none (fs : FileSystem) (directory extension : String)
    (h : existsFilesWithExtension fs directory extension = none) :
    hasFileWithExt fs.Join extension directory (fs.tree directory) = true := by
  unfold existsFilesWithExtension Walk at h
  cases hw : walk fs.Join (existsFilesWithExtension.walkFn extension) directory
      (fs.tree directory) false with
  | mk found err =>
    rw [hw] at h
    have h1 := walk_found fs.Join extension directory (fs.tree directory) false
    rw [hw] at h1
    cases found with
    | false => simp at h
    | true => simpa using h1 rfl

theorem hasSuiDependency_iff (pkg : Package) :
    (pkg.Dependencies.lookup "Sui").isNone = false ↔ hasSuiDependency pkg := by
  unfold hasSuiDependency
  cases h : pkg.Dependencies.lookup "Sui" with
  | none =>
    rw [List.lookup_eq_none_iff] at h
    simp only [Option.isNone_none, Bool.true_eq_false, List.mem_map, Prod.exists,
      exists_and_right, exists_eq_right, false_iff, not_exists]
    intro d hd
    simpa using h _ hd
  | some d =>
    have h2 : (pkg.Dependencies.lookup "Sui").isSome = true := by rw [h]; rfl
    rw [List.lookup_isSome_iff] at h2
    obtain ⟨q, hq, hk⟩ := h2
    simp only [Option.isNone_some, List.mem_map, true_iff]
    exact ⟨q, hq, by simpa using (beq_iff_eq.mp hk).symm⟩

/-! ## Detection -/

/-- C1: when `Move.toml` exists at the root and parses, its dependencies contain
the key `Sui`, and the tree, walked without error, contains a non-directory file
with extension `.move`, then `Detect` returns no error and a result with
`Pass = true` and exactly one build plan that provides `sui` and requires `sui`. -/
theorem detect_match (fs : FileSystem) (context : DetectContext) (pkg : Package)
    (hstat : fs.Stat (manifestPath fs context) = none)
    (hparse : fs.DecodeFile (manifestPath fs context) = (pkg, none))
    (hsui : hasSuiDependency pkg)
    (hwalk : (fs.tree (walkRoot fs context)).noError = true)
    (hmove : hasFileWithExt fs.Join ".move" (walkRoot fs context)
      (fs.tree (walkRoot fs context)) = true) :
    Detect fs context = (⟨true, [⟨[⟨"sui"⟩], [⟨"sui"⟩]⟩]⟩, none) := by
  unfold manifestPath at hstat hparse
  unfold walkRoot at hwalk hmove
  have hex := existsFilesWithExtension_noError fs _ ".move" hwalk hmove
  have hdep := (hasSuiDependency_iff pkg).mpr hsui
  simp [Detect, suiProject, hstat, hparse, hdep, hex, IsNotExist, PlanEntrySui]

theorem detect_match_witness :
    hasSuiDependency ⟨[("Sui", ⟨"https://github.com/MystenLabs/sui.git", "framework/devnet",
      "crates/sui-framework/packages/sui-framework"⟩)]⟩ ∧
    hasFileWithExt suiApp.Join ".move" (walkRoot suiApp workspace)
      (suiApp.tree (walkRoot suiApp workspace)) = true ∧
    Detect suiApp workspace = (⟨true, [⟨[⟨"sui"⟩], [⟨"sui"⟩]⟩]⟩, none) :=
  ⟨by decide, by decide,
    detect_match suiApp workspace _ rfl rfl (by decide) (by decide) (by decide)⟩

/-- C2: when there is no `Move.toml` at the root, or the manifest has no
dependency keyed `Sui`, or no non-directory file of the tree has the extension
`.move`, the result returned by `Detect` has `Pass = false` and no plans. -/
theorem detect_non_match (fs : FileSystem) (context : DetectContext)
    (h : IsNotExist (fs.Stat (manifestPath fs context)) = true ∨
      (∃ pkg, fs.DecodeFile (manifestPath fs context) = (pkg, none) ∧ ¬ hasSuiDependency pkg) ∨
      hasFileWithExt fs.Join ".move" (walkRoot fs context)
        (fs.tree (walkRoot fs context)) = false) :
    (Detect fs context).1.Pass = false ∧ (Detect fs context).1.Plans = [] := by
  unfold manifestPath walkRoot at h
  cases hp : suiProject fs context.Application.Path with
  | mk found err =>
    cases err with
    | some e => simp [Detect, hp]
    | none =>
      cases found with
      | false => simp [Detect, hp]
      | true =>
        exfalso
        unfold suiProject at hp
        simp only [] at hp
        split at hp
        · simp at hp
        · rename_i hst
          split at hp
          · simp at hp
          · rename_i pkg hdec
            split at hp
            · simp at hp
            · rename_i hdep
              split at hp
              · simp at hp
              · rename_i hex
                rcases h with h | ⟨pkg2, hpkg, hno⟩ | h
                · simp [h] at hst
                · rw [hdec] at hpkg
                  cases hpkg
                  exact hno ((hasSuiDependency_iff _).mp (by simpa using hdep))
                · rw [existsFilesWithExtension_none fs _ _ hex] at h
                  exact Bool.noConfusion h

theorem detect_non_match_witness :
    ((Detect emptyApp workspace).1.Pass = false ∧ (Detect emptyApp workspace).1.Plans = []) ∧
    ((Detect aptosApp workspace).1.Pass = false ∧ (Detect aptosApp workspace).1.Plans = []) ∧
    ((Detect noContractApp workspace).1.Pass = false ∧
      (Detect noContractApp workspace).1.Plans = []) :=
  ⟨detect_non_match emptyApp workspace (Or.inl (by decide)),
   detect_non_match aptosApp workspace (Or.inr (Or.inl ⟨_, rfl, by decide⟩)),
   detect_non_match noContractApp workspace (Or.inr (Or.inr (by decide)))⟩

/-- C3, refuted as stated: the manifest of `aptosApp` exists and parses and its
tree is walked without an I/O error, yet `Detect` returns a non-nil error, the
manifest having no dependency keyed `Sui`; likewise for `noContractApp`, whose
tree has no `.move` file. -/
theorem detect_error_without_io_error :
    (aptosApp.Stat (manifestPath aptosApp workspace) = none ∧
      (aptosApp.DecodeFile (manifestPath aptosApp workspace)).2 = none ∧
      (aptosApp.tree (walkRoot aptosApp workspace)).noError = true ∧
      Detect aptosApp workspace = (⟨false, []⟩,
        some ⟨"unable to detect Sui requirements\nunable to determine if Sui project", false⟩)) ∧
    (noContractApp.Stat (manifestPath noContractApp workspace) = none ∧
      (noContractApp.DecodeFile (manifestPath noContractApp workspace)).2 = none ∧
      (noContractApp.tree (walkRoot noContractApp workspace)).noError = true ∧
      (Detect noContractApp workspace).2 ≠ none) := by
  decide

/-- C3, amended: when `Move.toml` exists and parses and the tree is walked
without an I/O error, `Detect` returns a nil error exactly when the manifest has
a dependency keyed `Sui` and the tree contains a non-directory file with
extension `.move`; in that case `Pass = true`, and otherwise `Detect` returns
`Pass = false`, no plans and a non-nil error. -/
theorem detect_error_iff (fs : FileSystem) (context : DetectContext) (pkg : Package)
    (hstat : fs.Stat (manifestPath fs context) = none)
    (hparse : fs.DecodeFile (manifestPath fs context) = (pkg, none))
    (hwalk : (fs.tree (walkRoot fs context)).noError = true) :
    ((Detect fs context).2 = none ↔
      (hasSuiDependency pkg ∧ hasFileWithExt fs.Join ".move" (walkRoot fs context)
        (fs.tree (walkRoot fs context)) = true)) ∧
    ((Detect fs context).2 = none → (Detect fs context).1.Pass = true) ∧
    ((Detect fs context).2 ≠ none → (Detect fs context).1 = ⟨false, []⟩) := by
  by_cases hsui : hasSuiDependency pkg
  · cases hmove : hasFileWithExt fs.Join ".move" (walkRoot fs context)
        (fs.tree (walkRoot fs context)) with
    | true =>
      have hex := existsFilesWithExtension_noError fs (walkRoot fs context) ".move" hwalk hmove
      have hdep := (hasSuiDependency_iff pkg).mpr hsui
      unfold manifestPath at hstat hparse
      unfold walkRoot at hex
      simp [Detect, suiProject, hstat, hparse, hdep, hex, IsNotExist, hsui]
    | false =>
      have hex : existsFilesWithExtension fs (fs.Join context.Application.Path ".") ".move" ≠
          none := by
        intro hn
        have := existsFilesWithExtension_none fs _ _ hn
        unfold walkRoot at hmove
        rw [hmove] at this
        exact Bool.noConfusion this
      have hdep := (hasSuiDependency_iff pkg).mpr hsui
      unfold manifestPath at hstat hparse
      cases hx : existsFilesWithExtension fs (fs.Join context.Application.Path ".") ".move" with
      | none => exact absurd hx hex
      | some e => simp [Detect, suiProject, hstat, hparse, hdep, hx, IsNotExist]
  · have hdep : (pkg.Dependencies.lookup "Sui").isNone = true := by
      cases hd : (pkg.Dependencies.lookup "Sui").isNone with
      | true => rfl
      | false => exact absurd ((hasSuiDependency_iff pkg).mp hd) hsui
    unfold manifestPath at hstat hparse
    simp [Detect, suiProject, hstat, hparse, hdep, IsNotExist, hsui]

theorem detect_error_iff_witness :
    (((Detect aptosApp workspace).2 = none ↔
      (hasSuiDependency ⟨[("AptosFramework", ⟨"https://github.com/aptos-labs/aptos-core.git",
        "main", "aptos-move/framework/aptos-framework"⟩)]⟩ ∧
      hasFileWithExt aptosApp.Join ".move" (walkRoot aptosApp workspace)
        (aptosApp.tree (walkRoot aptosApp workspace)) = true)) ∧
    ((Detect aptosApp workspace).2 = none → (Detect aptosApp workspace).1.Pass = true) ∧
    ((Detect aptosApp workspace).2 ≠ none → (Detect aptosApp workspace).1 = ⟨false, []⟩)) ∧
    (Detect aptosApp workspace).2 ≠ none :=
  ⟨detect_error_iff aptosApp workspace _ rfl rfl (by decide), by decide⟩

/-! ## Process types -/

theorem length_eq_zero_iff (s : String) : (s.length == 0) = true ↔ s = "" := by
  cases s with
  | mk data =>
    simp only [String.length, beq_iff_eq, List.length_eq_zero]
    constructor
    · intro h; rw [h]
    · intro h; exact congrArg String.data h

/-- C4: with one configuration as the resolver of the receiver and as the
argument of `BuildProcessTypes`: when `BP_ENABLE_SUI_DEPLOY` is false the result
is the empty list and no error; when it is true and `BP_SUI_DEPLOY_PRIVATE_KEY`
is empty the call returns an error; when it is true and the key is not empty the
result is, without error, the single process of type `sui`, command `sui`, marked
as the default, with the arguments `client`, `publish`,
`--skip-fetch-latest-git-deps`, `--gas-budget`, `g`, where `g` is the value of
`BP_SUI_DEPLOY_GAS`. -/
theorem buildProcessTypes_same_resolver (cr : ConfigurationResolver) (executor : Executor)
    (app : Application) :
    (cr.ResolveBool "BP_ENABLE_SUI_DEPLOY" = false →
      BuildProcessTypes ⟨cr, executor⟩ cr app = ([], none)) ∧
    (cr.ResolveBool "BP_ENABLE_SUI_DEPLOY" = true →
      (cr.Resolve "BP_SUI_DEPLOY_PRIVATE_KEY").1 = "" →
      (BuildProcessTypes ⟨cr, executor⟩ cr app).2 ≠ none) ∧
    (cr.ResolveBool "BP_ENABLE_SUI_DEPLOY" = true →
      (cr.Resolve "BP_SUI_DEPLOY_PRIVATE_KEY").1 ≠ "" →
      BuildProcessTypes ⟨cr, executor⟩ cr app =
        ([⟨"sui", "sui", ["client", "publish", "--skip-fetch-latest-git-deps", "--gas-budget",
          (cr.Resolve "BP_SUI_DEPLOY_GAS").1], true⟩], none)) := by
  refine ⟨?_, ?_, ?_⟩
  · intro h
    simp [BuildProcessTypes, h]
  · intro h hk
    simp [BuildProcessTypes, h, hk]
  · intro h hk
    have hlen : ((cr.Resolve "BP_SUI_DEPLOY_PRIVATE_KEY").1.length == 0) = false := by
      cases hl : ((cr.Resolve "BP_SUI_DEPLOY_PRIVATE_KEY").1.length == 0) with
      | false => rfl
      | true => exact absurd ((length_eq_zero_iff _).mp hl) hk
    have hlen2 : ¬ (cr.Resolve "BP_SUI_DEPLOY_PRIVATE_KEY").1.length = 0 := by
      simpa using hlen
    simp [BuildProcessTypes, h, hlen2, PlanEntrySui]

theorem buildProcessTypes_same_resolver_witness :
    BuildProcessTypes ⟨envResolver [], exampleExecutor⟩ (envResolver []) ⟨"/workspace"⟩ =
      ([], none) ∧
    (BuildProcessTypes ⟨envResolver [("BP_ENABLE_SUI_DEPLOY", "true")], exampleExecutor⟩
      (envResolver [("BP_ENABLE_SUI_DEPLOY", "true")]) ⟨"/workspace"⟩).2 ≠ none ∧
    BuildProcessTypes
      ⟨envResolver [("BP_ENABLE_SUI_DEPLOY", "true"), ("BP_SUI_DEPLOY_PRIVATE_KEY", "suiprivkey1")],
        exampleExecutor⟩
      (envResolver [("BP_ENABLE_SUI_DEPLOY", "true"), ("BP_SUI_DEPLOY_PRIVATE_KEY", "suiprivkey1")])
      ⟨"/workspace"⟩ =
      ([⟨"sui", "sui", ["client", "publish", "--skip-fetch-latest-git-deps", "--gas-budget", ""],
        true⟩], none) :=
  ⟨(buildProcessTypes_same_resolver (envResolver []) exampleExecutor ⟨"/workspace"⟩).1
      (by decide),
   (buildProcessTypes_same_resolver (envResolver [("BP_ENABLE_SUI_DEPLOY", "true")])
      exampleExecutor ⟨"/workspace"⟩).2.1 (by decide) (by decide),
   (buildProcessTypes_same_resolver
      (envResolver [("BP_ENABLE_SUI_DEPLOY", "true"), ("BP_SUI_DEPLOY_PRIVATE_KEY", "suiprivkey1")])
      exampleExecutor ⟨"/workspace"⟩).2.2 (by decide) (by decide)⟩

/-- C10: `BuildProcessTypes` reads the deploy flag and the gas budget from the
resolver passed as argument and the private key from the resolver of the
receiver. When the argument has `BP_ENABLE_SUI_DEPLOY` false the result is the
empty list and no error, whatever the receiver resolves. When the argument has it
true, the result is the empty list with the error that the key must be specified
if `BP_SUI_DEPLOY_PRIVATE_KEY` is empty in the receiver, and otherwise the single
process whose gas budget is the `BP_SUI_DEPLOY_GAS` of the argument; so an error
is returned exactly when the key is empty in the receiver. Two arguments that
agree on `BP_ENABLE_SUI_DEPLOY` and `BP_SUI_DEPLOY_GAS` give the same result
whatever else, the private key included, they resolve, and two receivers that
agree on `BP_SUI_DEPLOY_PRIVATE_KEY` give the same result whatever flag and gas
budget they resolve. -/
theorem buildProcessTypes_resolvers (r : Sui) (app : Application) :
    (∀ cr : ConfigurationResolver, cr.ResolveBool "BP_ENABLE_SUI_DEPLOY" = false →
      BuildProcessTypes r cr app = ([], none)) ∧
    (∀ cr : ConfigurationResolver, cr.ResolveBool "BP_ENABLE_SUI_DEPLOY" = true →
      (r.configResolver.Resolve "BP_SUI_DEPLOY_PRIVATE_KEY").1 = "" →
      BuildProcessTypes r cr app =
        ([], some (Errorf "BP_SUI_DEPLOY_PRIVATE_KEY must be specified"))) ∧
    (∀ cr : ConfigurationResolver, cr.ResolveBool "BP_ENABLE_SUI_DEPLOY" = true →
      (r.configResolver.Resolve "BP_SUI_DEPLOY_PRIVATE_KEY").1 ≠ "" →
      BuildProcessTypes r cr app =
        ([⟨"sui", "sui", ["client", "publish", "--skip-fetch-latest-git-deps", "--gas-budget",
          (cr.Resolve "BP_SUI_DEPLOY_GAS").1], true⟩], none)) ∧
    (∀ cr : ConfigurationResolver, cr.ResolveBool "BP_ENABLE_SUI_DEPLOY" = true →
      ((BuildProcessTypes r cr app).2 ≠ none ↔
        (r.configResolver.Resolve "BP_SUI_DEPLOY_PRIVATE_KEY").1 = "")) ∧
    (∀ cr1 cr2 : ConfigurationResolver,
      cr1.ResolveBool "BP_ENABLE_SUI_DEPLOY" = cr2.ResolveBool "BP_ENABLE_SUI_DEPLOY" →
      (cr1.Resolve "BP_SUI_DEPLOY_GAS").1 = (cr2.Resolve "BP_SUI_DEPLOY_GAS").1 →
      BuildProcessTypes r cr1 app = BuildProcessTypes r cr2 app) ∧
    (∀ (r2 : Sui) (cr : ConfigurationResolver),
      (r2.configResolver.Resolve "BP_SUI_DEPLOY_PRIVATE_KEY").1 =
        (r.configResolver.Resolve "BP_SUI_DEPLOY_PRIVATE_KEY").1 →
      BuildProcessTypes r2 cr app = BuildProcessTypes r cr app) := by
  have hlen : (r.configResolver.Resolve "BP_SUI_DEPLOY_PRIVATE_KEY").1 ≠ "" →
      ¬ (r.configResolver.Resolve "BP_SUI_DEPLOY_PRIVATE_KEY").1.length = 0 := by
    intro hk hl
    exact hk ((length_eq_zero_iff _).mp (by simpa using hl))
  refine ⟨?_, ?_, ?_, ?_, ?_, ?_⟩
  · intro cr h
    simp [BuildProcessTypes, h]
  · intro cr h hk
    simp [BuildProcessTypes, h, hk]
  · intro cr h hk
    simp [BuildProcessTypes, h, hlen hk, PlanEntrySui]
  · intro cr h
    by_cases hk : (r.configResolver.Resolve "BP_SUI_DEPLOY_PRIVATE_KEY").1 = ""
    · simp [BuildProcessTypes, h, hk]
    · simp [BuildProcessTypes, h, hk, hlen hk]
  · intro cr1 cr2 hb hg
    simp [BuildProcessTypes, hb, hg]
  · intro r2 cr hk
    simp [BuildProcessTypes, hk]

theorem buildProcessTypes_resolvers_witness :
    BuildProcessTypes
      ⟨envResolver [("BP_ENABLE_SUI_DEPLOY", "true"), ("BP_SUI_DEPLOY_PRIVATE_KEY", "suiprivkey1"),
        ("BP_SUI_DEPLOY_GAS", "1")], exampleExecutor⟩
      (envResolver [("BP_SUI_DEPLOY_GAS", "999")]) ⟨"/workspace"⟩ = ([], none) ∧
    BuildProcessTypes ⟨envResolver [("BP_ENABLE_SUI_DEPLOY", "true")], exampleExecutor⟩
      (envResolver [("BP_ENABLE_SUI_DEPLOY", "true"), ("BP_SUI_DEPLOY_PRIVATE_KEY", "suiprivkey1")])
      ⟨"/workspace"⟩ = ([], some (Errorf "BP_SUI_DEPLOY_PRIVATE_KEY must be specified")) ∧
    BuildProcessTypes
      ⟨envResolver [("BP_SUI_DEPLOY_PRIVATE_KEY", "suiprivkey1"), ("BP_SUI_DEPLOY_GAS", "1")],
        exampleExecutor⟩
      (envResolver [("BP_ENABLE_SUI_DEPLOY", "true"), ("BP_SUI_DEPLOY_GAS", "999")])
      ⟨"/workspace"⟩ =
      ([⟨"sui", "sui", ["client", "publish", "--skip-fetch-latest-git-deps", "--gas-budget",
        "999"], true⟩], none) ∧
    BuildProcessTypes ⟨envResolver [("BP_SUI_DEPLOY_PRIVATE_KEY", "suiprivkey1")], exampleExecutor⟩
      (envResolver [("BP_ENABLE_SUI_DEPLOY", "true")]) ⟨"/workspace"⟩ =
    BuildProcessTypes ⟨envResolver [("BP_SUI_DEPLOY_PRIVATE_KEY", "suiprivkey1")], exampleExecutor⟩
      (envResolver [("BP_ENABLE_SUI_DEPLOY", "1"), ("BP_SUI_DEPLOY_PRIVATE_KEY", "")])
      ⟨"/workspace"⟩ :=
  ⟨(buildProcessTypes_resolvers
      ⟨envResolver [("BP_ENABLE_SUI_DEPLOY", "true"), ("BP_SUI_DEPLOY_PRIVATE_KEY", "suiprivkey1"),
        ("BP_SUI_DEPLOY_GAS", "1")], exampleExecutor⟩ ⟨"/workspace"⟩).1
      (envResolver [("BP_SUI_DEPLOY_GAS", "999")]) (by decide),
   (buildProcessTypes_resolvers ⟨envResolver [("BP_ENABLE_SUI_DEPLOY", "true")], exampleExecutor⟩
      ⟨"/workspace"⟩).2.1
      (envResolver [("BP_ENABLE_SUI_DEPLOY", "true"), ("BP_SUI_DEPLOY_PRIVATE_KEY", "suiprivkey1")])
      (by decide) (by decide),
   (buildProcessTypes_resolvers
      ⟨envResolver [("BP_SUI_DEPLOY_PRIVATE_KEY", "suiprivkey1"), ("BP_SUI_DEPLOY_GAS", "1")],
        exampleExecutor⟩ ⟨"/workspace"⟩).2.2.1
      (envResolver [("BP_ENABLE_SUI_DEPLOY", "true"), ("BP_SUI_DEPLOY_GAS", "999")])
      (by decide) (by decide),
   (buildProcessTypes_resolvers
      ⟨envResolver [("BP_SUI_DEPLOY_PRIVATE_KEY", "suiprivkey1")], exampleExecutor⟩
      ⟨"/workspace"⟩).2.2.2.2.1 _ _ (by decide) (by decide)⟩

/-! ## Wallet initialisation -/

theorem faucet_url : "https://faucet." ++ "devnet" ++ ".sui.io/gas" =
    "https://faucet.devnet.sui.io/gas" := by decide

/-- C6: `GetFaucet` executes the faucet command, one `curl` POST to
`https://faucet.devnet.sui.io/gas` naming the recipient, if and only if the
network is exactly `devnet`; for every other network it executes nothing, logs
nothing and returns true with a nil error. -/
theorem getFaucet_iff_devnet (r : Sui) (recipient deployNetwork : String) (st : State) :
    ((GetFaucet r recipient deployNetwork st).2.executions =
        st.executions ++ [faucetCommand recipient] ↔ deployNetwork = "devnet") ∧
    ((GetFaucet r recipient deployNetwork st).2.executions ≠ st.executions ↔
      deployNetwork = "devnet") ∧
    (deployNetwork ≠ "devnet" → GetFaucet r recipient deployNetwork st = ((true, none), st)) := by
  by_cases h : deployNetwork = "devnet"
  · subst h
    have hex : (GetFaucet r recipient "devnet" st).2.executions =
        st.executions ++ [faucetCommand recipient] := by
      simp only [GetFaucet, Execute, Bodyf, faucetCommand, faucet_url]
      cases r.Executor st.executions _ with
      | mk buf err => cases err <;> simp
    refine ⟨by simp [hex], ?_, by simp⟩
    rw [hex]
    simp
  · simp [GetFaucet, h]

theorem getFaucet_iff_devnet_witness :
    (GetFaucet ⟨envResolver [], exampleExecutor⟩ "0xabc" "devnet" State.start).2.executions =
      [faucetCommand "0xabc"] ∧
    GetFaucet ⟨envResolver [], exampleExecutor⟩ "0xabc" "testnet" State.start =
      ((true, none), State.start) :=
  ⟨(getFaucet_iff_devnet ⟨envResolver [], exampleExecutor⟩ "0xabc" "devnet" State.start).1.mpr rfl,
   (getFaucet_iff_devnet ⟨envResolver [], exampleExecutor⟩ "0xabc" "testnet" State.start).2.2
     (by decide)⟩

theorem initializeWallet_value (r : Sui) (unmarshal : Unmarshal)
    (key scheme network : String) (st : State)
    (out1 out2 out3 out4 : String) (err1 err2 err3 err4 werr : Option Error)
    (wallet : DeployWallet)
    (h1 : r.Executor st.executions envsCommand = (out1, err1))
    (h2 : r.Executor (st.executions ++ [envsCommand]) (importCommand key scheme) = (out2, err2))
    (h3 : unmarshal out2 = (wallet, werr))
    (h4 : r.Executor (st.executions ++ [envsCommand, importCommand key scheme])
      (switchCommand wallet.Address network) = (out3, err3))
    (h5 : r.Executor (st.executions ++ [envsCommand, importCommand key scheme,
      switchCommand wallet.Address network]) (faucetCommand wallet.Address) = (out4, err4)) :
    ((InitializeWallet r unmarshal key scheme network st).1.1 =
      (err1.isNone && err2.isNone && werr.isNone && (wallet.KeyScheme == scheme) &&
        err3.isNone && (!(network == "devnet") || err4.isNone))) ∧
    ((InitializeWallet r unmarshal key scheme network st).1.2.isNone =
      (InitializeWallet r unmarshal key scheme network st).1.1) ∧
    ((InitializeWallet r unmarshal key scheme network st).2.executions =
      st.executions ++ envsCommand ::
        (if err1.isNone then
          importCommand key scheme ::
            (if err2.isNone && werr.isNone && (wallet.KeyScheme == scheme) then
              switchCommand wallet.Address network ::
                (if err3.isNone && (network == "devnet") then [faucetCommand wallet.Address]
                 else [])
             else [])
         else [])) := by
  simp only [envsCommand, importCommand, switchCommand, faucetCommand] at h1 h2 h4 h5 ⊢
  cases err1 with
  | some e1 =>
    simp [InitializeWallet, InitializeEnv, Execute, Bodyf, PlanEntrySui, h1]
  | none =>
    cases err2 with
    | some e2 =>
      simp [InitializeWallet, InitializeEnv, ImportingDeployKey, Execute, Bodyf, PlanEntrySui,
        h1, h2]
    | none =>
      cases werr with
      | some e3 =>
        simp [InitializeWallet, InitializeEnv, ImportingDeployKey, VerifyingDeployKey, Execute,
          Bodyf, PlanEntrySui, h1, h2, h3]
      | none =>
        by_cases hs : wallet.KeyScheme = scheme
        · cases err3 with
          | some e4 =>
            simp [InitializeWallet, InitializeEnv, ImportingDeployKey, VerifyingDeployKey,
              SwitchDeployWallet, Execute, Bodyf, PlanEntrySui, h1, h2, h3, h4, hs]
          | none =>
            by_cases hn : network = "devnet"
            · subst hn
              cases err4 with
              | some e5 =>
                simp [InitializeWallet, InitializeEnv, ImportingDeployKey, VerifyingDeployKey,
                  SwitchDeployWallet, GetFaucet, Execute, Bodyf, PlanEntrySui, h1, h2, h3, h4,
                  h5, hs]
              | none =>
                simp [InitializeWallet, InitializeEnv, ImportingDeployKey, VerifyingDeployKey,
                  SwitchDeployWallet, GetFaucet, Execute, Bodyf, PlanEntrySui, h1, h2, h3, h4,
                  h5, hs]
            · simp [InitializeWallet, InitializeEnv, ImportingDeployKey, VerifyingDeployKey,
                SwitchDeployWallet, GetFaucet, Execute, Bodyf, PlanEntrySui, h1, h2, h3, h4, hs,
                hn]
        · simp [InitializeWallet, InitializeEnv, ImportingDeployKey, VerifyingDeployKey, Execute,
            Bodyf, PlanEntrySui, h1, h2, h3, hs]

/-- C5: name the outputs and errors of the four commands and of the decoding of
the key-import output. Whichever step of `InitializeWallet` fails (environment
initialisation, key import, key verification because the output does not parse
or its scheme differs from the configured one, wallet switch, faucet request),
`InitializeWallet` returns false with a non-nil error and the commands it has
executed are those up to the failing step and no later one; in particular after
a failed verification neither `client switch` nor the faucet `curl` is executed. -/
theorem initializeWallet_abort (r : Sui) (unmarshal : Unmarshal)
    (key scheme network : String) (st : State)
    (out1 out2 out3 out4 : String) (err1 err2 err3 err4 werr : Option Error)
    (wallet : DeployWallet)
    (h1 : r.Executor st.executions envsCommand = (out1, err1))
    (h2 : r.Executor (st.executions ++ [envsCommand]) (importCommand key scheme) = (out2, err2))
    (h3 : unmarshal out2 = (wallet, werr))
    (h4 : r.Executor (st.executions ++ [envsCommand, importCommand key scheme])
      (switchCommand wallet.Address network) = (out3, err3))
    (h5 : r.Executor (st.executions ++ [envsCommand, importCommand key scheme,
      switchCommand wallet.Address network]) (faucetCommand wallet.Address) = (out4, err4)) :
    (err1 ≠ none →
      (InitializeWallet r unmarshal key scheme network st).1.1 = false ∧
      (InitializeWallet r unmarshal key scheme network st).1.2 ≠ none ∧
      (InitializeWallet r unmarshal key scheme network st).2.executions =
        st.executions ++ [envsCommand]) ∧
    (err1 = none → err2 ≠ none →
      (InitializeWallet r unmarshal key scheme network st).1.1 = false ∧
      (InitializeWallet r unmarshal key scheme network st).1.2 ≠ none ∧
      (InitializeWallet r unmarshal key scheme network st).2.executions =
        st.executions ++ [envsCommand, importCommand key scheme]) ∧
    (err1 = none → err2 = none → (werr ≠ none ∨ wallet.KeyScheme ≠ scheme) →
      (InitializeWallet r unmarshal key scheme network st).1.1 = false ∧
      (InitializeWallet r unmarshal key scheme network st).1.2 ≠ none ∧
      (InitializeWallet r unmarshal key scheme network st).2.executions =
        st.executions ++ [envsCommand, importCommand key scheme]) ∧
    (err1 = none → err2 = none → werr = none → wallet.KeyScheme = scheme → err3 ≠ none →
      (InitializeWallet r unmarshal key scheme network st).1.1 = false ∧
      (InitializeWallet r unmarshal key scheme network st).1.2 ≠ none ∧
      (InitializeWallet r unmarshal key scheme network st).2.executions =
        st.executions ++ [envsCommand, importCommand key scheme,
          switchCommand wallet.Address network]) ∧
    (err1 = none → err2 = none → werr = none → wallet.KeyScheme = scheme → err3 = none →
      network = "devnet" → err4 ≠ none →
      (InitializeWallet r unmarshal key scheme network st).1.1 = false ∧
      (InitializeWallet r unmarshal key scheme network st).1.2 ≠ none ∧
      (InitializeWallet r unmarshal key scheme network st).2.executions =
        st.executions ++ [envsCommand, importCommand key scheme,
          switchCommand wallet.Address network, faucetCommand wallet.Address]) ∧
    ((InitializeWallet r unmarshal key scheme network st).1.1 = false ↔
      (InitializeWallet r unmarshal key scheme network st).1.2 ≠ none) := by
  obtain ⟨hv, he, hx⟩ := initializeWallet_value r unmarshal key scheme network st
    out1 out2 out3 out4 err1 err2 err3 err4 werr wallet h1 h2 h3 h4 h5
  have hne : ∀ o : Option Error, o ≠ none → o.isNone = false := by
    intro o ho
    cases o with
    | none => exact absurd rfl ho
    | some _ => rfl
  have hfail : (InitializeWallet r unmarshal key scheme network st).1.1 = false →
      (InitializeWallet r unmarshal key scheme network st).1.2 ≠ none := by
    intro hf hn
    rw [hn, hf] at he
    exact Bool.noConfusion he
  refine ⟨?_, ?_, ?_, ?_, ?_, ?_⟩
  · intro e1
    have hf : (InitializeWallet r unmarshal key scheme network st).1.1 = false := by
      rw [hv, hne _ e1]; rfl
    exact ⟨hf, hfail hf, by rw [hx, hne _ e1]; rfl⟩
  · intro e1 e2
    have hf : (InitializeWallet r unmarshal key scheme network st).1.1 = false := by
      rw [hv, e1, hne _ e2]; rfl
    exact ⟨hf, hfail hf, by rw [hx, e1, hne _ e2]; rfl⟩
  · intro e1 e2 e3
    have hw : (werr.isNone && (wallet.KeyScheme == scheme)) = false := by
      rcases e3 with e3 | e3
      · rw [hne _ e3]; rfl
      · simp [e3]
    have hf : (InitializeWallet r unmarshal key scheme network st).1.1 = false := by
      rw [hv, e1, e2]
      simp only [Option.isNone_none, Bool.true_and, hw, Bool.false_and]
    refine ⟨hf, hfail hf, ?_⟩
    rw [hx, e1, e2]
    simp only [Option.isNone_none, Bool.true_and, hw]
    rfl
  · intro e1 e2 e3 e4 e5
    have hf : (InitializeWallet r unmarshal key scheme network st).1.1 = false := by
      rw [hv, e1, e2, e3, e4, hne _ e5]; simp
    refine ⟨hf, hfail hf, ?_⟩
    rw [hx, e1, e2, e3, e4, hne _ e5]
    simp
  · intro e1 e2 e3 e4 e5 e6 e7
    have hf : (InitializeWallet r unmarshal key scheme network st).1.1 = false := by
      rw [hv, e1, e2, e3, e4, e5, e6, hne _ e7]; simp
    refine ⟨hf, hfail hf, ?_⟩
    rw [hx, e1, e2, e3, e4, e5, e6]
    simp
  · constructor
    · exact hfail
    · intro hn
      cases hb : (InitializeWallet r unmarshal key scheme network st).1.1 with
      | false => rfl
      | true =>
        rw [hb] at he
        cases ho : (InitializeWallet r unmarshal key scheme network st).1.2 with
        | none => exact absurd ho hn
        | some e => rw [ho] at he; exact Bool.noConfusion he

theorem initializeWallet_abort_witness :
    ((InitializeWallet ⟨envResolver [], exampleExecutor⟩ decodeWallet "suiprivkey1" "secp256k1"
        "devnet" State.start).1.1 = false ∧
      (InitializeWallet ⟨envResolver [], exampleExecutor⟩ decodeWallet "suiprivkey1" "secp256k1"
        "devnet" State.start).1.2 ≠ none ∧
      (InitializeWallet ⟨envResolver [], exampleExecutor⟩ decodeWallet "suiprivkey1" "secp256k1"
        "devnet" State.start).2.executions =
        [envsCommand, importCommand "suiprivkey1" "secp256k1"]) ∧
    ((InitializeWallet ⟨envResolver [], failingSwitchExecutor⟩ decodeWallet "suiprivkey1"
        "ed25519" "devnet" State.start).1.1 = false ∧
      (InitializeWallet ⟨envResolver [], failingSwitchExecutor⟩ decodeWallet "suiprivkey1"
        "ed25519" "devnet" State.start).1.2 ≠ none ∧
      (InitializeWallet ⟨envResolver [], failingSwitchExecutor⟩ decodeWallet "suiprivkey1"
        "ed25519" "devnet" State.start).2.executions =
        [envsCommand, importCommand "suiprivkey1" "ed25519", switchCommand "0xabc" "devnet"]) :=
  ⟨(initializeWallet_abort ⟨envResolver [], exampleExecutor⟩ decodeWallet "suiprivkey1"
      "secp256k1" "devnet" State.start _ _ _ _ _ _ _ _ _ _ rfl rfl rfl rfl rfl).2.2.1
      rfl rfl (Or.inr (by decide)),
   (initializeWallet_abort ⟨envResolver [], failingSwitchExecutor⟩ decodeWallet "suiprivkey1"
      "ed25519" "devnet" State.start _ _ _ _ _ _ _ _ _ _ rfl rfl rfl rfl rfl).2.2.2.1
      rfl rfl rfl rfl (by decide)⟩

/-- C7: when the output of the key import decodes to a wallet with address `a`
and the configured scheme, verification succeeds and returns that wallet; and
when the commands succeed (the environment listing, the key import, the switch
and, on `devnet`, the faucet request), `InitializeWallet` returns true with a nil
error after executing, in this order, the environment listing, the key import,
`sui client switch --address a --env network` and, when the network is `devnet`
and only then, the faucet request whose body names the recipient `a`. -/
theorem initializeWallet_uses_address (r : Sui) (unmarshal : Unmarshal)
    (key scheme network a : String) (st : State)
    (hdec : unmarshal (r.Executor (st.executions ++ [envsCommand])
      (importCommand key scheme)).1 = (⟨a, scheme⟩, none))
    (h1 : (r.Executor st.executions envsCommand).2 = none)
    (h2 : (r.Executor (st.executions ++ [envsCommand]) (importCommand key scheme)).2 = none)
    (h4 : (r.Executor (st.executions ++ [envsCommand, importCommand key scheme])
      (switchCommand a network)).2 = none)
    (h5 : network = "devnet" →
      (r.Executor (st.executions ++ [envsCommand, importCommand key scheme,
        switchCommand a network]) (faucetCommand a)).2 = none) :
    (∀ st1 : State, (VerifyingDeployKey unmarshal
      (r.Executor (st.executions ++ [envsCommand]) (importCommand key scheme)).1
      key scheme st1).1 = (⟨a, scheme⟩, none)) ∧
    (InitializeWallet r unmarshal key scheme network st).1 = (true, none) ∧
    (InitializeWallet r unmarshal key scheme network st).2.executions =
      st.executions ++ ([envsCommand, importCommand key scheme, switchCommand a network] ++
        (if network = "devnet" then [faucetCommand a] else [])) := by
  obtain ⟨hv, he, hx⟩ := initializeWallet_value r unmarshal key scheme network st
    _ _ _ _ none none none
    (r.Executor (st.executions ++ [envsCommand, importCommand key scheme,
      switchCommand a network]) (faucetCommand a)).2
    none ⟨a, scheme⟩ (Prod.ext rfl h1) (Prod.ext rfl h2) hdec (Prod.ext rfl h4) rfl
  refine ⟨?_, ?_, ?_⟩
  · intro st1
    simp [VerifyingDeployKey, hdec]
  · have hv2 : (InitializeWallet r unmarshal key scheme network st).1.1 = true := by
      rw [hv]
      by_cases hn : network = "devnet"
      · rw [h5 hn]
        simp
      · simp [hn]
    rw [hv2] at he
    apply Prod.ext hv2
    simpa using he
  · rw [hx]
    by_cases hn : network = "devnet" <;> simp [hn]

theorem initializeWallet_uses_address_witness :
    decodeWallet "\x7b\"suiAddress\":\"0xabc\",\"keyScheme\":\"ed25519\"\x7d" =
      (⟨"0xabc", "ed25519"⟩, none) ∧
    (VerifyingDeployKey decodeWallet "\x7b\"suiAddress\":\"0xabc\",\"keyScheme\":\"ed25519\"\x7d"
      "suiprivkey1" "ed25519" State.start).1 = (⟨"0xabc", "ed25519"⟩, none) ∧
    (InitializeWallet ⟨envResolver [], exampleExecutor⟩ decodeWallet "suiprivkey1" "ed25519"
      "devnet" State.start).1 = (true, none) ∧
    (InitializeWallet ⟨envResolver [], exampleExecutor⟩ decodeWallet "suiprivkey1" "ed25519"
      "devnet" State.start).2.executions =
      [envsCommand, importCommand "suiprivkey1" "ed25519", switchCommand "0xabc" "devnet",
        faucetCommand "0xabc"] :=
  ⟨by decide,
   (initializeWallet_uses_address ⟨envResolver [], exampleExecutor⟩ decodeWallet "suiprivkey1"
      "ed25519" "devnet" "0xabc" State.start (by decide) (by decide) (by decide) (by decide)
      (fun _ => by decide)).1 State.start,
   (initializeWallet_uses_address ⟨envResolver [], exampleExecutor⟩ decodeWallet "suiprivkey1"
      "ed25519" "devnet" "0xabc" State.start (by decide) (by decide) (by decide) (by decide)
      (fun _ => by decide)).2⟩

/-- C8: when `BP_ENABLE_SUI_DEPLOY` resolves to false, `InitializeDeployWallet`
returns true with a nil error and leaves the run as it was: no command is
executed and nothing is logged, so no step of wallet initialisation, the
verification that builds the `DeployWallet` included, has run, whatever the
private key, the key scheme and the network resolve to. -/
theorem initializeDeployWallet_disabled (r : Sui) (unmarshal : Unmarshal) (st : State)
    (h : r.configResolver.ResolveBool "BP_ENABLE_SUI_DEPLOY" = false) :
    InitializeDeployWallet r unmarshal st = ((true, none), st) ∧
    (∀ key scheme network : String,
      (InitializeWallet r unmarshal key scheme network st).2.executions ≠ st.executions) ∧
    (∀ data key scheme : String,
      (VerifyingDeployKey unmarshal data key scheme st).2.logged ≠ st.logged) := by
  refine ⟨by simp [InitializeDeployWallet, h], ?_, ?_⟩
  · intro key scheme network heq
    have hx := (initializeWallet_value r unmarshal key scheme network st _ _ _ _ _ _ _ _ _ _
      rfl rfl rfl rfl rfl).2.2
    rw [heq] at hx
    have hlen := congrArg List.length hx
    simp only [List.length_append, List.length_cons] at hlen
    omega
  · intro data key scheme heq
    have hlen : (VerifyingDeployKey unmarshal data key scheme st).2.logged.length =
        st.logged.length + 1 := by
      simp only [VerifyingDeployKey, Bodyf]
      repeat' split
      all_goals simp
    rw [heq] at hlen
    omega

theorem initializeDeployWallet_disabled_witness :
    InitializeDeployWallet
      ⟨envResolver [("BP_ENABLE_SUI_DEPLOY", "false"), ("BP_SUI_DEPLOY_PRIVATE_KEY", "suiprivkey1"),
        ("BP_SUI_DEPLOY_KEY_SCHEME", "ed25519"), ("BP_SUI_DEPLOY_NETWORK", "devnet")],
        exampleExecutor⟩ decodeWallet State.start = ((true, none), State.start) :=
  (initializeDeployWallet_disabled _ decodeWallet State.start (by decide)).1

/-! ## The version read by Contribute -/

theorem Split_append_sep (sep : Char) (l : List Char) :
    ∀ t : List Char, (∀ c ∈ t, c ≠ sep) → Split sep (t ++ sep :: l) = t :: Split sep l
  | [], _ => by simp [Split]
  | c :: t, h => by
    have hc : c ≠ sep := h c (List.mem_cons_self _ _)
    have ih := Split_append_sep sep l t (fun x hx => h x (List.mem_cons_of_mem _ hx))
    simp [Split, hc, ih]

theorem Split_no_sep (sep : Char) :
    ∀ t : List Char, (∀ c ∈ t, c ≠ sep) → Split sep t = [t]
  | [], _ => by simp [Split]
  | c :: t, h => by
    have hc : c ≠ sep := h c (List.mem_cons_self _ _)
    have ih := Split_no_sep sep t (fun x hx => h x (List.mem_cons_of_mem _ hx))
    simp [Split, hc, ih]

theorem Fields_cons_space (c : Char) (cs : List Char) (hc : isSpace c = true) :
    Fields (c :: cs) = Fields cs := by
  cases cs with
  | nil => simp only [Fields, hc, if_true]
  | cons d r => rw [Fields]; simp only [hc, if_true]

theorem Fields_single (c : Char) (hc : isSpace c = false) : Fields [c] = [[c]] := by
  simp only [Fields, hc, Bool.false_eq_true, if_false]

theorem Fields_cons_before_space (c d : Char) (r : List Char) (hc : isSpace c = false)
    (hd : isSpace d = true) : Fields (c :: d :: r) = [c] :: Fields (d :: r) := by
  rw [Fields]
  simp only [hc, hd, Bool.false_eq_true, if_false, if_true]

theorem Fields_cons_before_token (c d : Char) (r : List Char) (field : List Char)
    (fields : List (List Char)) (hc : isSpace c = false) (hd : isSpace d = false)
    (h : Fields (d :: r) = field :: fields) :
    Fields (c :: d :: r) = (c :: field) :: fields := by
  rw [Fields]
  simp only [hc, hd, Bool.false_eq_true, if_false, h]

theorem Fields_space_append (l : List Char) :
    ∀ pre : List Char, (∀ c ∈ pre, isSpace c = true) → Fields (pre ++ l) = Fields l
  | [], _ => rfl
  | c :: pre, h => by
    have hc : isSpace c = true := h c (List.mem_cons_self _ _)
    have ih := Fields_space_append l pre (fun x hx => h x (List.mem_cons_of_mem _ hx))
    rw [List.cons_append, Fields_cons_space _ _ hc, ih]

theorem Fields_token_append (l : List Char)
    (hl : l = [] ∨ ∃ d r, l = d :: r ∧ isSpace d = true) :
    ∀ t : List Char, t ≠ [] → (∀ c ∈ t, isSpace c = false) → Fields (t ++ l) = t :: Fields l
  | [], h, _ => absurd rfl h
  | [c], _, h => by
    have hc : isSpace c = false := h c (List.mem_cons_self _ _)
    rcases hl with hl | ⟨d, r, hl, hd⟩
    · subst hl
      rw [List.append_nil, Fields_single c hc]
      rfl
    · subst hl
      exact Fields_cons_before_space c d r hc hd
  | c :: c2 :: t, _, h => by
    have hc : isSpace c = false := h c (List.mem_cons_self _ _)
    have hc2 : isSpace c2 = false := h c2 (List.mem_cons_of_mem _ (List.mem_cons_self _ _))
    have ih := Fields_token_append l hl (c2 :: t) (List.cons_ne_nil _ _)
      (fun x hx => h x (List.mem_cons_of_mem _ hx))
    rw [List.cons_append] at ih
    exact Fields_cons_before_token c c2 (t ++ l) (c2 :: t) (Fields l) hc hc2 ih

theorem trimRight_token_append (b : List Char) (c : Char) (hc : isSpace c = false)
    (post : List Char)
    (hpost : (∀ x ∈ post, isSpace x = true) ∨ ∃ r, post = ' ' :: r) :
    ∃ rest, (((b ++ [c]) ++ post).reverse.dropWhile isSpace).reverse = (b ++ [c]) ++ rest ∧
      (rest = [] ∨ ∃ r, rest = ' ' :: r) := by
  have hbody : ((b ++ [c]).reverse).dropWhile isSpace = (b ++ [c]).reverse := by
    simp [List.dropWhile_cons, hc]
  rw [List.reverse_append, List.dropWhile_append]
  by_cases he : (post.reverse.dropWhile isSpace).isEmpty = true
  · refine ⟨[], ?_, Or.inl rfl⟩
    rw [if_pos he, hbody]
    simp
  · refine ⟨(post.reverse.dropWhile isSpace).reverse, ?_, ?_⟩
    · rw [if_neg he]
      simp
    · rcases hpost with hall | ⟨r, hr⟩
      · exfalso
        apply he
        have : post.reverse.dropWhile isSpace = [] := by
          rw [List.dropWhile_eq_nil_iff]
          intro x hx
          exact hall x (List.mem_reverse.mp hx)
        rw [this]
        rfl
      · subst hr
        right
        rw [List.reverse_cons, List.dropWhile_append] at he ⊢
        by_cases he2 : (r.reverse.dropWhile isSpace).isEmpty = true
        · exfalso
          apply he
          rw [if_pos he2]
          decide
        · rw [if_neg he2]
          exact ⟨(r.reverse.dropWhile isSpace).reverse, by simp⟩

theorem TrimSpace_tokens (pre t1 t2 post : List Char)
    (hpre : ∀ c ∈ pre, isSpace c = true)
    (h1 : t1 ≠ []) (h1s : ∀ c ∈ t1, isSpace c = false)
    (h2 : t2 ≠ []) (h2s : ∀ c ∈ t2, isSpace c = false)
    (hpost : (∀ x ∈ post, isSpace x = true) ∨ ∃ r, post = ' ' :: r) :
    ∃ rest, TrimSpace (pre ++ t1 ++ ' ' :: t2 ++ post) = t1 ++ ' ' :: t2 ++ rest ∧
      (rest = [] ∨ ∃ r, rest = ' ' :: r) := by
  have hleft : (pre ++ t1 ++ ' ' :: t2 ++ post).dropWhile isSpace =
      t1 ++ ' ' :: t2 ++ post := by
    rw [List.append_assoc, List.append_assoc, List.dropWhile_append_of_pos hpre]
    cases t1 with
    | nil => exact absurd rfl h1
    | cons c t =>
      have hc : isSpace c = false := h1s c (List.mem_cons_self _ _)
      simp [List.dropWhile_cons, hc]
  obtain ⟨b, c, hbc⟩ : ∃ b c, t2 = b ++ [c] := by
    rcases List.eq_nil_or_concat t2 with h | ⟨b, c, h⟩
    · exact absurd h h2
    · exact ⟨b, c, by simpa using h⟩
  have hc : isSpace c = false := h2s c (by rw [hbc]; simp)
  obtain ⟨rest, hrest, hshape⟩ := trimRight_token_append (t1 ++ ' ' :: b) c hc post hpost
  refine ⟨rest, ?_, hshape⟩
  unfold TrimSpace
  rw [hleft, hbc]
  have e1 : t1 ++ ' ' :: (b ++ [c]) ++ post = ((t1 ++ ' ' :: b) ++ [c]) ++ post := by simp
  have e2 : t1 ++ ' ' :: (b ++ [c]) ++ rest = ((t1 ++ ' ' :: b) ++ [c]) ++ rest := by simp
  rw [e1, e2]
  exact hrest

/-- C9, refuted as stated: the output `sui<TAB>1.2.3` has two whitespace-delimited
tokens, yet the index 1 is out of range; the output `sui  1.2.3`, with two
spaces, has the second token `1.2.3`, yet the version extracted is empty. -/
theorem version_not_second_token :
    (Fields "sui\t1.2.3".toList = ["sui".toList, "1.2.3".toList] ∧
      Contribute.version "sui\t1.2.3" = none) ∧
    (Fields "sui  1.2.3".toList = ["sui".toList, "1.2.3".toList] ∧
      Contribute.version "sui  1.2.3" = some "") := by
  decide

/-- C9, amended: when the first two whitespace-delimited tokens of the output
are separated by exactly one space character and the second is followed by a
space character or by white space only, the index 1 is in range and the version
extracted equals the second whitespace-delimited token. -/
theorem version_second_token (pre t1 t2 post : List Char)
    (hpre : ∀ c ∈ pre, isSpace c = true)
    (h1 : t1 ≠ []) (h1s : ∀ c ∈ t1, isSpace c = false)
    (h2 : t2 ≠ []) (h2s : ∀ c ∈ t2, isSpace c = false)
    (hpost : (∀ x ∈ post, isSpace x = true) ∨ ∃ r, post = ' ' :: r) :
    Contribute.version (String.mk (pre ++ t1 ++ ' ' :: t2 ++ post)) = some (String.mk t2) ∧
    (Fields (pre ++ t1 ++ ' ' :: t2 ++ post))[1]? = some t2 := by
  have hsp : isSpace ' ' = true := by decide
  have hne : ∀ t : List Char, (∀ c ∈ t, isSpace c = false) → ∀ c ∈ t, c ≠ ' ' := by
    intro t ht c hc heq
    have := ht c hc
    rw [heq, hsp] at this
    exact Bool.noConfusion this
  constructor
  · obtain ⟨rest, htrim, hshape⟩ := TrimSpace_tokens pre t1 t2 post hpre h1 h1s h2 h2s hpost
    have hsplit : (Split ' ' (t1 ++ ' ' :: t2 ++ rest))[1]? = some t2 := by
      rw [List.append_assoc, List.cons_append, Split_append_sep ' ' _ t1 (hne t1 h1s)]
      rcases hshape with hr | ⟨r, hr⟩
      · subst hr
        rw [List.append_nil, Split_no_sep ' ' t2 (hne t2 h2s)]
        rfl
      · subst hr
        rw [Split_append_sep ' ' _ t2 (hne t2 h2s)]
        simp
    show ((Split ' ' (TrimSpace (pre ++ t1 ++ ' ' :: t2 ++ post)))[1]?).map String.mk = _
    rw [htrim, hsplit]
    rfl
  · have hpost2 : post = [] ∨ ∃ d r, post = d :: r ∧ isSpace d = true := by
      rcases hpost with hall | ⟨r, hr⟩
      · cases post with
        | nil => exact Or.inl rfl
        | cons d r => exact Or.inr ⟨d, r, rfl, hall d (List.mem_cons_self _ _)⟩
      · exact Or.inr ⟨' ', r, hr, hsp⟩
    have hmid : ' ' :: t2 ++ post = [] ∨
        ∃ d r, ' ' :: t2 ++ post = d :: r ∧ isSpace d = true :=
      Or.inr ⟨' ', t2 ++ post, rfl, hsp⟩
    have e : pre ++ t1 ++ ' ' :: t2 ++ post = pre ++ (t1 ++ (' ' :: t2 ++ post)) := by simp
    rw [e, Fields_space_append _ pre hpre, Fields_token_append _ hmid t1 h1 h1s,
      List.cons_append, Fields_cons_space _ _ hsp, Fields_token_append _ hpost2 t2 h2 h2s]
    simp

theorem version_second_token_witness :
    Contribute.version "sui 1.20.0-9b1e0ae\n" = some "1.20.0-9b1e0ae" ∧
    (Fields "sui 1.20.0-9b1e0ae\n".toList)[1]? = some "1.20.0-9b1e0ae".toList :=
  version_second_token [] "sui".toList "1.20.0-9b1e0ae".toList ['\n']
    (by decide) (by decide) (by decide) (by decide) (by decide) (Or.inl (by decide))

end SuiBuildpack
